import Mathlib

/-!
Verification of the progress/leveling/badge subsystem of the repository
(`backend/database/progress_manager.py`), as a shallow embedding in Lean.

Modelling conventions:
* Python `datetime` values are modelled as integers (`Time`, an abstract tick
  count, with days measured as `86400` ticks); `datetime.isoformat` /
  `datetime.fromisoformat` round-trip exactly, so serialization of a datetime
  is modelled as the identity on its tick value.  All `datetime.now()` calls
  made during a single operation are modelled as one instant `now`, passed in
  explicitly.
* Python floats (scores) are modelled as `ℚ`; Python ints as `ℕ` where the
  source keeps them non-negative (`experience_points`, counters, levels).
* Python dicts keyed by strings are modelled as association lists with the
  insertion-order update semantics of `dict` (`lookupAssoc` / `updateAssoc`).
* The JSON file written by `_save_data` and read back by `_load_data` is
  modelled at the dict level (`UserDict`, `RecordDict`, `BadgeDict`): JSON
  round-trips these structures faithfully.
-/

set_option maxRecDepth 10000

abbrev Time := ℤ

abbrev Score := ℚ

/-- `AnalysisRecord` dataclass: one analysis session.  `category_scores` is
`None` (here `none`) when the caller supplied no category breakdown. -/
structure AnalysisRecord where
  session_id : String
  date : Time
  overall_score : Score
  angle : String
  category_scores : Option (List (String × Score))
deriving DecidableEq, Repr

/-- `Badge` dataclass: one earned badge. -/
structure Badge where
  id : String
  name : String
  description : String
  earned_date : Time
  icon : String
deriving DecidableEq, Repr

/-- `UserProgress` dataclass: the per-user aggregate root. -/
structure UserProgress where
  user_id : String
  total_analyses : ℕ
  current_level : ℕ
  experience_points : ℕ
  analysis_records : List AnalysisRecord
  badges : List Badge
  created_date : Time
  last_analysis_date : Option Time
deriving DecidableEq, Repr

/-- A fresh aggregate, as built by `UserProgress(user_id=user_id)` together
with `__post_init__` (empty records/badges, `created_date = now`). -/
def fresh_user (uid : String) (now : Time) : UserProgress :=
  ⟨uid, 0, 1, 0, [], [], now, none⟩

/-- One entry of the level catalog (`_define_level_requirements`). -/
structure LevelReq where
  name : String
  min_points : ℕ
  min_analyses : ℕ
deriving DecidableEq, Repr

/-- `ProgressManager._define_level_requirements`, in dict insertion order. -/
def level_requirements : List (ℕ × LevelReq) :=
  [(1, ⟨"ビギナー", 0, 0⟩),
   (2, ⟨"プレイヤー", 100, 5⟩),
   (3, ⟨"スキルドプレイヤー", 300, 15⟩),
   (4, ⟨"アドバンスプレイヤー", 600, 30⟩),
   (5, ⟨"エキスパート", 1000, 50⟩),
   (6, ⟨"マスター", 1500, 75⟩),
   (7, ⟨"レジェンド", 2500, 100⟩)]

/-- One entry of the badge catalog (`_define_badges`). -/
structure BadgeDef where
  name : String
  description : String
  icon : String
  auto_award : Bool
  condition : String
deriving DecidableEq, Repr

/-- `ProgressManager._define_badges`, in dict insertion order. -/
def badge_definitions : List (String × BadgeDef) :=
  [("first_analysis", ⟨"初回解析", "初めての動画解析を完了", "🎾", true, "analysis_count >= 1"⟩),
   ("consistent_week", ⟨"継続の一歩", "1週間以内に3回解析", "📅", true, "weekly_analyses >= 3"⟩),
   ("form_improver", ⟨"フォーム改善者", "総合スコアが20ポイント向上", "📈", true, "score_improvement >= 20"⟩),
   ("stance_master", ⟨"スタンスマスター", "スタンススコア90点以上を達成", "🏛️", true, "stance_score >= 90"⟩),
   ("swing_artist", ⟨"スイングアーティスト", "スイング軌道スコア85点以上を達成", "🎨", true, "swing_score >= 85"⟩),
   ("balance_keeper", ⟨"バランスキーパー", "バランススコア85点以上を達成", "⚖️", true, "balance_score >= 85"⟩),
   ("monthly_warrior", ⟨"月間戦士", "1ヶ月間継続練習", "🗓️", true, "monthly_analyses >= 8"⟩),
   ("perfectionist", ⟨"完璧主義者", "総合スコア95点以上を達成", "💎", true, "overall_score >= 95"⟩),
   ("dedicated_student", ⟨"熱心な生徒", "50回の解析を完了", "📚", true, "total_analyses >= 50"⟩),
   ("improvement_champion", ⟨"改善チャンピオン", "全カテゴリで80点以上を達成", "🏆", true, "all_categories_above_80"⟩)]

/-- `ProgressManager._calculate_experience_points`: 10 base points plus a
score-tier bonus. -/
def calculate_experience_points (score : Score) : ℕ :=
  let base_points := 10
  let bonus : ℕ :=
    if score ≥ 90 then 20
    else if score ≥ 80 then 15
    else if score ≥ 70 then 10
    else if score ≥ 60 then 5
    else 0
  base_points + bonus

/-- `ProgressManager._check_level_up`: fold over the level catalog, taking the
maximum attained level, starting from the current level. -/
def check_level_up (p : UserProgress) : ℕ :=
  level_requirements.foldl
    (fun cur lr =>
      if p.experience_points ≥ lr.2.min_points ∧ p.total_analyses ≥ lr.2.min_analyses
      then max cur lr.1 else cur)
    p.current_level

/-- Whether a character list starts with the pattern. -/
def chars_start_with : List Char → List Char → Bool
  | _, [] => true
  | [], _ :: _ => false
  | c :: cs, p :: ps => c == p && chars_start_with cs ps

/-- Whether the pattern occurs as a contiguous run of the character list. -/
def chars_contain (pat : List Char) : List Char → Bool
  | [] => chars_start_with [] pat
  | c :: cs => chars_start_with (c :: cs) pat || chars_contain pat cs

/-- The Python substring test `pat in s`. -/
def str_contains (s pat : String) : Bool :=
  chars_contain pat.data s.data

/-- `ProgressManager._check_category_score`: any of the last 3 records has the
given category at or above the threshold.  The Python test
`if record.category_scores and category in record.category_scores` treats a
missing (`None`) or empty mapping as falsy, which coincides with the lookup
failing. -/
def check_category_score (p : UserProgress) (category : String) (threshold : Score) : Bool :=
  let recent_records :=
    if p.analysis_records.length ≥ 3
    then p.analysis_records.drop (p.analysis_records.length - 3)
    else p.analysis_records
  recent_records.any (fun r =>
    match r.category_scores with
    | some cs =>
      match List.lookup category cs with
      | some v => v ≥ threshold
      | none => false
    | none => false)

/-- `ProgressManager._check_badge_condition`: dispatch on the condition
string.  The three category conditions are substring tests in the source; the
fall-through (in particular for `all_categories_above_80`) is `False`.  In the
`score_improvement` branch, Python falls off the end (returning falsy `None`)
when one of the score lists is empty; this is modelled by the `false`
match arms. -/
def check_badge_condition (now : Time) (p : UserProgress) (condition : String) : Bool :=
  if condition = "analysis_count >= 1" then
    p.total_analyses ≥ 1
  else if condition = "weekly_analyses >= 3" then
    let week_ago := now - 7 * 86400
    let weekly_count := (p.analysis_records.filter (fun r => decide (r.date ≥ week_ago))).length
    weekly_count ≥ 3
  else if condition = "monthly_analyses >= 8" then
    let month_ago := now - 30 * 86400
    let monthly_count := (p.analysis_records.filter (fun r => decide (r.date ≥ month_ago))).length
    monthly_count ≥ 8
  else if condition = "score_improvement >= 20" then
    if p.analysis_records.length < 5 then false
    else
      let recent_scores :=
        (p.analysis_records.drop (p.analysis_records.length - 5)).map (fun r => r.overall_score)
      let early_scores := (p.analysis_records.take 5).map (fun r => r.overall_score)
      match recent_scores.max?, early_scores.max? with
      | some mr, some me => mr - me ≥ 20
      | _, _ => false
  else if condition = "overall_score >= 95" then
    let recent_records :=
      if p.analysis_records.length ≥ 3
      then p.analysis_records.drop (p.analysis_records.length - 3)
      else p.analysis_records
    recent_records.any (fun r => decide (r.overall_score ≥ 95))
  else if condition = "total_analyses >= 50" then
    p.total_analyses ≥ 50
  else if str_contains condition ("stance_score >= 90") then
    check_category_score p ("stance") 90
  else if str_contains condition ("swing_score >= 85") then
    check_category_score p ("swing_path") 85
  else if str_contains condition ("balance_score >= 85") then
    check_category_score p ("balance") 85
  else
    false

/-- `ProgressManager._award_badge_internal`: append a badge built from the
catalog entry; a badge id absent from the catalog appends nothing. -/
def award_badge_internal (now : Time) (p : UserProgress) (badge_id : String) : UserProgress :=
  match List.lookup badge_id badge_definitions with
  | some bd =>
    { p with badges := p.badges ++ [⟨badge_id, bd.name, bd.description, now, bd.icon⟩] }
  | none => p

/-- One iteration of the loop in `ProgressManager._check_auto_badges`:
skip non-auto entries, skip ids in the `earned_badge_ids` snapshot, award
when the condition holds. -/
def auto_badge_step (now : Time) (earned : List String) (prog : UserProgress)
    (entry : String × BadgeDef) : UserProgress :=
  if entry.2.auto_award = false then prog
  else if entry.1 ∈ earned then prog
  else if check_badge_condition now prog entry.2.condition then
    award_badge_internal now prog entry.1
  else prog

/-- `ProgressManager._check_auto_badges`: the `earned_badge_ids` set is taken
once up front; the loop then folds over the catalog. -/
def check_auto_badges (now : Time) (p : UserProgress) : UserProgress :=
  badge_definitions.foldl (auto_badge_step now (p.badges.map Badge.id)) p

/-- `ProgressManager._award_level_up_badge`: unconditionally append a
`level_{N}` badge. -/
def award_level_up_badge (now : Time) (p : UserProgress) (level : ℕ) : UserProgress :=
  { p with badges := p.badges ++
      [⟨"level_" ++ toString level, "レベル" ++ toString level ++ "達成",
        "レベル" ++ toString level ++ "に到達しました", now, "⭐"⟩] }

/-- The JSON object emitted by `AnalysisRecord.to_dict`: `category_scores`
is always present, a `None` value being replaced by an empty mapping
(`self.category_scores or \x7b\x7d`). -/
structure RecordDict where
  session_id : String
  date : Time
  overall_score : Score
  angle : String
  category_scores : List (String × Score)
deriving DecidableEq, Repr

/-- The JSON object emitted by `Badge.to_dict`. -/
structure BadgeDict where
  id : String
  name : String
  description : String
  earned_date : Time
  icon : String
deriving DecidableEq, Repr

/-- The per-user JSON object built by `ProgressManager._save_data`. -/
structure UserDict where
  user_id : String
  total_analyses : ℕ
  current_level : ℕ
  experience_points : ℕ
  created_date : Time
  last_analysis_date : Option Time
  analysis_records : List RecordDict
  badges : List BadgeDict
deriving DecidableEq, Repr

/-- `AnalysisRecord.to_dict`. -/
def record_to_dict (r : AnalysisRecord) : RecordDict :=
  ⟨r.session_id, r.date, r.overall_score, r.angle, r.category_scores.getD []⟩

/-- The record reconstruction in `_load_data`: `AnalysisRecord(**record_data)`
receives the (possibly empty) `category_scores` mapping, never `None`. -/
def record_of_dict (d : RecordDict) : AnalysisRecord :=
  ⟨d.session_id, d.date, d.overall_score, d.angle, some d.category_scores⟩

/-- `Badge.to_dict`. -/
def badge_to_dict (b : Badge) : BadgeDict :=
  ⟨b.id, b.name, b.description, b.earned_date, b.icon⟩

/-- The badge reconstruction in `_load_data`: `Badge(**badge_data)`. -/
def badge_of_dict (d : BadgeDict) : Badge :=
  ⟨d.id, d.name, d.description, d.earned_date, d.icon⟩

/-- The per-user dict built by `ProgressManager._save_data`. -/
def user_to_dict (p : UserProgress) : UserDict :=
  ⟨p.user_id, p.total_analyses, p.current_level, p.experience_points,
   p.created_date, p.last_analysis_date,
   p.analysis_records.map record_to_dict, p.badges.map badge_to_dict⟩

/-- The per-user reconstruction in `_load_data`: `UserProgress(**user_data)`
after the nested conversions. -/
def user_of_dict (d : UserDict) : UserProgress :=
  ⟨d.user_id, d.total_analyses, d.current_level, d.experience_points,
   d.analysis_records.map record_of_dict, d.badges.map badge_of_dict,
   d.created_date, d.last_analysis_date⟩

/-- `ProgressManager._save_data`, at the dict level: serialize every user. -/
def save_store (d : List (String × UserProgress)) : List (String × UserDict) :=
  d.map (fun x => (x.1, user_to_dict x.2))

/-- `ProgressManager._load_data` on a well-formed file, at the dict level:
deserialize every user. -/
def load_store (s : List (String × UserDict)) : List (String × UserProgress) :=
  s.map (fun x => (x.1, user_of_dict x.2))

/-- Python `dict` lookup on an insertion-ordered association list. -/
def lookupAssoc : List (String × UserProgress) → String → Option UserProgress
  | [], _ => none
  | (k, v) :: rest, u => if k = u then some v else lookupAssoc rest u

/-- Python `dict` assignment: replace in place if the key exists, else append
at the end (insertion order). -/
def updateAssoc : List (String × UserProgress) → String → UserProgress → List (String × UserProgress)
  | [], u, p => [(u, p)]
  | (k, v) :: rest, u, p => if k = u then (k, p) :: rest else (k, v) :: updateAssoc rest u p

/-- The mutable state of the `ProgressManager`: the in-memory `progress_data` map
and the persisted file (`none` until the first save, as after starting from a
missing or corrupt file). -/
structure ManagerState where
  progress_data : List (String × UserProgress)
  data_file : Option (List (String × UserDict))
deriving DecidableEq, Repr

/-- `ProgressManager._save_data`: rewrite the whole file from
`progress_data`. -/
def save_data (st : ManagerState) : ManagerState :=
  ⟨st.progress_data, some (save_store st.progress_data)⟩

/-- The record append, counter update and experience accumulation performed by
`add_analysis_record` before the level-up check. -/
def apply_record (now : Time) (sid : String) (score : Score) (angle : String)
    (category_scores : Option (List (String × Score))) (p0 : UserProgress) : UserProgress :=
  { p0 with
      analysis_records := p0.analysis_records ++ [⟨sid, now, score, angle, category_scores⟩],
      total_analyses := p0.total_analyses + 1,
      last_analysis_date := some now,
      experience_points := p0.experience_points + calculate_experience_points score }

/-- The level-up step of `add_analysis_record`: overwrite the level and award
the `level_{N}` badge exactly when the computed level exceeds the current
one. -/
def apply_level_up (now : Time) (p1 : UserProgress) : UserProgress :=
  let new_level := check_level_up p1
  if p1.current_level < new_level then
    award_level_up_badge now { p1 with current_level := new_level } new_level
  else p1

/-- The value returned by `ProgressManager.add_analysis_record`. -/
structure AddResult where
  exp_gained : ℕ
  new_level : Option ℕ
  new_badges : List Badge
deriving DecidableEq, Repr

/-- `ProgressManager.add_analysis_record`: create the user if absent, append
the record, update the counters, add experience, raise the level (awarding a
`level_{N}` badge on a raise), run the automatic badge evaluator, persist, and
build the result.  The returned `new_level` in the source compares against
`progress.current_level` after that field has already been overwritten, and
its `new_badges` is the literal empty list. -/
def add_analysis_record (now : Time) (uid sid : String) (score : Score) (angle : String)
    (category_scores : Option (List (String × Score))) (st : ManagerState) :
    AddResult × ManagerState :=
  let p0 := (lookupAssoc st.progress_data uid).getD (fresh_user uid now)
  let p1 := apply_record now sid score angle category_scores p0
  let new_level := check_level_up p1
  let p3 := check_auto_badges now (apply_level_up now p1)
  let st' := save_data ⟨updateAssoc st.progress_data uid p3, st.data_file⟩
  (⟨calculate_experience_points score,
    if p3.current_level < new_level then some new_level else none, []⟩, st')

/-- `ProgressManager.award_badge`: `False` for an unknown user, an unknown
badge id, or an already-held badge; otherwise award, persist, and return
`True`. -/
def award_badge (now : Time) (uid badge_id : String) (st : ManagerState) :
    Bool × ManagerState :=
  match lookupAssoc st.progress_data uid with
  | none => (false, st)
  | some progress =>
    if (List.lookup badge_id badge_definitions).isNone then (false, st)
    else if badge_id ∈ progress.badges.map Badge.id then (false, st)
    else
      let p' := award_badge_internal now progress badge_id
      (true, save_data ⟨updateAssoc st.progress_data uid p', st.data_file⟩)

/-- Floor of a rational, computed by floor-division of numerator by
denominator (the denominator is positive). -/
def qfloor (q : ℚ) : ℤ :=
  q.num.fdiv q.den

/-- Round-half-to-even to an integer, the rounding the Python `round` builtin applies
to the exact value. -/
def round_half_even (q : ℚ) : ℤ :=
  let f := qfloor q
  if q - (f : ℚ) < 1 / 2 then f
  else if q - (f : ℚ) > 1 / 2 then f + 1
  else if f % 2 = 0 then f else f + 1

/-- The Python call `round(x, 1)`: round half-to-even at one decimal place. -/
def round1 (q : ℚ) : ℚ :=
  (round_half_even (q * 10) : ℚ) / 10

/-- `ProgressManager._get_trend_description`. -/
def get_trend_description (trend : String) (change_rate : ℚ) : String :=
  if trend = "improving" then
    if change_rate > 10 then "素晴らしい上達を見せています！"
    else "着実に改善が見られます"
  else if trend = "declining" then
    "少し調子が落ちているようです。基礎練習を重視しましょう"
  else
    "安定したパフォーマンスを維持しています"

/-- The records of the trailing 30 days (`_analyze_improvement_trends`). -/
def recent_month_records (now : Time) (p : UserProgress) : List AnalysisRecord :=
  p.analysis_records.filter (fun r => decide (r.date ≥ now - 30 * 86400))

/-- The `overall` entry of the dict returned by
`_analyze_improvement_trends`. -/
structure TrendResult where
  trend : String
  change_rate : ℚ
  description : String
deriving DecidableEq, Repr

/-- `ProgressManager._analyze_improvement_trends`: `none` models the empty
dict returned on insufficient data.  The reported `change_rate` is rounded to
one decimal; the description is built from the unrounded rate. -/
def analyze_improvement_trends (now : Time) (p : UserProgress) : Option TrendResult :=
  if p.analysis_records.length < 3 then none
  else
    let recent_records := recent_month_records now p
    if recent_records.length < 2 then none
    else
      let scores := recent_records.map (fun r => r.overall_score)
      let tc : String × ℚ :=
        if scores.length ≥ 2 then
          let firstScore := scores.headD 0
          let lastScore := scores.getLastD 0
          (if lastScore > firstScore then "improving"
           else if |lastScore - firstScore| < 5 then "stable"
           else "declining",
           if firstScore > 0 then (lastScore - firstScore) / firstScore * 100 else 0)
        else ("stable", 0)
      some ⟨tc.1, round1 tc.2, get_trend_description tc.1 tc.2⟩

/-- One entry of the `score_history` list (`_get_score_history`). -/
structure ScoreHistoryEntry where
  date : Time
  overall_score : Score
  angle : String
  session_id : String
deriving DecidableEq, Repr

/-- The projection `_get_score_history` applies to each record. -/
def score_history_entry (r : AnalysisRecord) : ScoreHistoryEntry :=
  ⟨r.date, r.overall_score, r.angle, r.session_id⟩

/-- `ProgressManager._get_score_history`: the last 10 records
(`analysis_records[-10:]`), projected. -/
def get_score_history (p : UserProgress) : List ScoreHistoryEntry :=
  (p.analysis_records.drop (p.analysis_records.length - 10)).map score_history_entry

/-- The dict returned by `_get_next_level_requirements`. -/
structure NextLevelReq where
  level : ℕ
  name : String
  points_needed : ℕ
  analyses_needed : ℕ
  description : String
deriving DecidableEq, Repr

/-- `ProgressManager._get_next_level_requirements`. -/
def get_next_level_requirements (current_level : ℕ) : NextLevelReq :=
  let next_level := current_level + 1
  match List.lookup next_level level_requirements with
  | some req =>
    ⟨next_level, req.name, req.min_points, req.min_analyses,
     "レベル" ++ toString next_level ++ "「" ++ req.name ++ "」まであと少し！"⟩
  | none =>
    ⟨current_level, "最高レベル", 0, 0, "おめでとうございます！最高レベルに到達しました！"⟩

/-- The snapshot dict returned by `get_user_progress`. -/
structure ProgressSnapshot where
  user_id : String
  total_analyses : ℕ
  current_level : ℕ
  experience_points : ℕ
  badges : List BadgeDict
  score_history : List ScoreHistoryEntry
  improvement_trends : Option TrendResult
  next_level_requirements : NextLevelReq
  last_analysis_date : Option Time
deriving DecidableEq, Repr

/-- `ProgressManager.get_user_progress`: `none` for an unknown user, else the
assembled snapshot. -/
def get_user_progress (now : Time) (uid : String) (st : ManagerState) :
    Option ProgressSnapshot :=
  match lookupAssoc st.progress_data uid with
  | none => none
  | some progress =>
    some ⟨uid, progress.total_analyses, progress.current_level,
          progress.experience_points,
          progress.badges.map badge_to_dict,
          get_score_history progress,
          analyze_improvement_trends now progress,
          get_next_level_requirements progress.current_level,
          progress.last_analysis_date⟩

/-! ### Helper lemmas -/

lemma lookup_update_self (l : List (String × UserProgress)) (u : String) (p : UserProgress) :
    lookupAssoc (updateAssoc l u p) u = some p := by
  induction l with
  | nil => simp [updateAssoc, lookupAssoc]
  | cons kv rest ih =>
    obtain ⟨k, v⟩ := kv
    by_cases h : k = u
    · simp [updateAssoc, lookupAssoc, h]
    · simp [updateAssoc, lookupAssoc, h, ih]

lemma lookup_update_other (l : List (String × UserProgress)) (k u : String) (p : UserProgress)
    (h : u ≠ k) : lookupAssoc (updateAssoc l k p) u = lookupAssoc l u := by
  have hku : ¬ k = u := fun hh => h hh.symm
  induction l with
  | nil => simp [updateAssoc, lookupAssoc, hku]
  | cons kv rest ih =>
    obtain ⟨k', v⟩ := kv
    by_cases hk : k' = k
    · subst hk
      simp [updateAssoc, lookupAssoc, hku]
    · by_cases hu : k' = u
      · simp [updateAssoc, lookupAssoc, hk, hu, h]
      · simp [updateAssoc, lookupAssoc, hk, hu, ih]

lemma award_badge_internal_fields (now : Time) (p : UserProgress) (bid : String) :
    (award_badge_internal now p bid).current_level = p.current_level ∧
    (award_badge_internal now p bid).experience_points = p.experience_points ∧
    (award_badge_internal now p bid).analysis_records = p.analysis_records ∧
    (award_badge_internal now p bid).total_analyses = p.total_analyses := by
  unfold award_badge_internal
  cases List.lookup bid badge_definitions <;> exact ⟨rfl, rfl, rfl, rfl⟩

lemma auto_badge_step_fields (now : Time) (earned : List String) (p : UserProgress)
    (d : String × BadgeDef) :
    (auto_badge_step now earned p d).current_level = p.current_level ∧
    (auto_badge_step now earned p d).experience_points = p.experience_points ∧
    (auto_badge_step now earned p d).analysis_records = p.analysis_records ∧
    (auto_badge_step now earned p d).total_analyses = p.total_analyses := by
  unfold auto_badge_step
  split_ifs <;> first
    | exact ⟨rfl, rfl, rfl, rfl⟩
    | exact award_badge_internal_fields now p d.1

lemma foldl_auto_badge_fields (now : Time) (earned : List String) :
    ∀ (defs : List (String × BadgeDef)) (p : UserProgress),
    (defs.foldl (auto_badge_step now earned) p).current_level = p.current_level ∧
    (defs.foldl (auto_badge_step now earned) p).experience_points = p.experience_points := by
  intro defs
  induction defs with
  | nil => intro p; exact ⟨rfl, rfl⟩
  | cons d rest ih =>
    intro p
    rw [List.foldl_cons]
    obtain ⟨h1, h2⟩ := ih (auto_badge_step now earned p d)
    obtain ⟨g1, g2, -, -⟩ := auto_badge_step_fields now earned p d
    exact ⟨h1.trans g1, h2.trans g2⟩

lemma check_auto_badges_level (now : Time) (p : UserProgress) :
    (check_auto_badges now p).current_level = p.current_level :=
  (foldl_auto_badge_fields now (p.badges.map Badge.id) badge_definitions p).1

lemma check_auto_badges_exp (now : Time) (p : UserProgress) :
    (check_auto_badges now p).experience_points = p.experience_points :=
  (foldl_auto_badge_fields now (p.badges.map Badge.id) badge_definitions p).2

lemma foldl_level_ge (p : UserProgress) :
    ∀ (l : List (ℕ × LevelReq)) (a : ℕ),
    a ≤ l.foldl
      (fun cur lr =>
        if p.experience_points ≥ lr.2.min_points ∧ p.total_analyses ≥ lr.2.min_analyses
        then max cur lr.1 else cur) a := by
  intro l
  induction l with
  | nil => intro a; exact Nat.le_refl a
  | cons x xs ih =>
    intro a
    rw [List.foldl_cons]
    refine Nat.le_trans ?_ (ih _)
    split_ifs
    · exact Nat.le_max_left a x.1
    · exact Nat.le_refl a

lemma check_level_up_ge (p : UserProgress) : p.current_level ≤ check_level_up p :=
  foldl_level_ge p level_requirements p.current_level

lemma apply_level_up_level (now : Time) (p : UserProgress) :
    (apply_level_up now p).current_level = max p.current_level (check_level_up p) := by
  simp only [apply_level_up]
  split_ifs with h
  · show check_level_up p = _
    exact (Nat.max_eq_right (Nat.le_of_lt h)).symm
  · exact (Nat.max_eq_left (Nat.le_of_not_lt h)).symm

lemma apply_level_up_exp (now : Time) (p : UserProgress) :
    (apply_level_up now p).experience_points = p.experience_points := by
  simp only [apply_level_up]
  split_ifs <;> rfl

/-- The second component of `add_analysis_record` updates exactly the entry of the caller
entry, with the fully processed aggregate. -/
lemma add_analysis_record_data (now : Time) (uid sid : String) (score : Score) (angle : String)
    (cs : Option (List (String × Score))) (st : ManagerState) :
    (add_analysis_record now uid sid score angle cs st).2.progress_data =
      updateAssoc st.progress_data uid
        (check_auto_badges now (apply_level_up now (apply_record now sid score angle cs
          ((lookupAssoc st.progress_data uid).getD (fresh_user uid now))))) := rfl

lemma badge_keys_nodup : (badge_definitions.map Prod.fst).Nodup := by decide

lemma auto_badge_step_ids (now : Time) (earned : List String) (p : UserProgress)
    (d : String × BadgeDef) :
    (auto_badge_step now earned p d).badges.map Badge.id = p.badges.map Badge.id ∨
    ((auto_badge_step now earned p d).badges.map Badge.id = p.badges.map Badge.id ++ [d.1] ∧
      d.1 ∉ earned ∧ check_badge_condition now p d.2.condition = true) := by
  unfold auto_badge_step
  split_ifs with h1 h2 h3
  · exact Or.inl rfl
  · exact Or.inl rfl
  · unfold award_badge_internal
    cases List.lookup d.1 badge_definitions with
    | none => exact Or.inl rfl
    | some bd => exact Or.inr ⟨by simp, h2, h3⟩
  · exact Or.inl rfl

/-- Badge ids added by the automatic evaluator loop: they extend the existing
ids by a sublist of the processed catalog keys, each absent from the
`earned` snapshot and justified by a true condition. -/
lemma auto_badge_ids (now : Time) (earned : List String) :
    ∀ (defs : List (String × BadgeDef)) (p : UserProgress),
    ∃ ext : List String,
      (defs.foldl (auto_badge_step now earned) p).badges.map Badge.id
          = p.badges.map Badge.id ++ ext ∧
      ext.Sublist (defs.map Prod.fst) ∧
      ∀ i ∈ ext, i ∉ earned ∧
        ∃ bd q, (i, bd) ∈ defs ∧ check_badge_condition now q bd.condition = true := by
  intro defs
  induction defs with
  | nil =>
    intro p
    exact ⟨[], by simp, List.Sublist.refl [], by simp⟩
  | cons d rest ih =>
    intro p
    obtain ⟨ext, hmap, hsub, hmem⟩ := ih (auto_badge_step now earned p d)
    rw [List.foldl_cons]
    rcases auto_badge_step_ids now earned p d with hstep | ⟨hstep, hnotin, hcond⟩
    · refine ⟨ext, by rw [hmap, hstep], hsub.cons d.1, ?_⟩
      intro i hi
      obtain ⟨h1, bd, q, h2, h3⟩ := hmem i hi
      exact ⟨h1, bd, q, List.mem_cons_of_mem d h2, h3⟩
    · refine ⟨d.1 :: ext, ?_, ?_, ?_⟩
      · rw [hmap, hstep, List.append_assoc]
        rfl
      · exact hsub.cons₂ d.1
      · intro i hi
        rcases List.mem_cons.mp hi with hi | hi
        · subst hi
          exact ⟨hnotin, d.2, p, by rw [← Prod.mk.eta (p := d)]; exact List.mem_cons_self _ _, hcond⟩
        · obtain ⟨h1, bd, q, h2, h3⟩ := hmem i hi
          exact ⟨h1, bd, q, List.mem_cons_of_mem d h2, h3⟩

/-- `_check_auto_badges` extends the badge-id list by fresh, catalog-justified
ids only. -/
lemma check_auto_badges_ids (now : Time) (p : UserProgress) :
    ∃ ext : List String,
      (check_auto_badges now p).badges.map Badge.id = p.badges.map Badge.id ++ ext ∧
      ext.Sublist (badge_definitions.map Prod.fst) ∧
      ∀ i ∈ ext, i ∉ p.badges.map Badge.id ∧
        ∃ bd q, (i, bd) ∈ badge_definitions ∧ check_badge_condition now q bd.condition = true :=
  auto_badge_ids now (p.badges.map Badge.id) badge_definitions p


/-! ### Concrete inputs used by witnesses and counterexamples -/

/-- A user already holding the `first_analysis` badge (C3 witness). -/
def c3w_user : UserProgress :=
  ⟨"u", 1, 1, 30, [⟨"s1", 0, 95, "front", none⟩],
   [⟨"first_analysis", "初回解析", "初めての動画解析を完了", 0, "🎾"⟩], 0, some 0⟩

/-- A user already holding the `improvement_champion` badge (C8 witness). -/
def c8_user : UserProgress :=
  ⟨"u", 1, 1, 30, [⟨"s1", 0, 95, "front", none⟩],
   [⟨"improvement_champion", "改善チャンピオン", "全カテゴリで80点以上を達成", 0, "🏆"⟩],
   0, some 0⟩

/-! ### Claim theorems -/

/-- C4: the experience computation is a pure function of the score equal to
10 base points plus a tier bonus: 30 for score ≥ 90, 25 on [80, 90),
20 on [70, 80), 15 on [60, 70), and 10 below 60. -/
theorem C4_experience_tiers (score : Score) :
    (90 ≤ score → calculate_experience_points score = 30) ∧
    (80 ≤ score → score < 90 → calculate_experience_points score = 25) ∧
    (70 ≤ score → score < 80 → calculate_experience_points score = 20) ∧
    (60 ≤ score → score < 70 → calculate_experience_points score = 15) ∧
    (score < 60 → calculate_experience_points score = 10) := by
  unfold calculate_experience_points
  refine ⟨?_, ?_, ?_, ?_, ?_⟩ <;> intros <;> split_ifs <;> first | rfl | linarith

/-- C4 witness: the tier theorem applied at the five scores named by the
spec. -/
theorem C4_experience_tiers_witness :
    calculate_experience_points 95 = 30 ∧ calculate_experience_points 85 = 25 ∧
    calculate_experience_points 72 = 20 ∧ calculate_experience_points 65 = 15 ∧
    calculate_experience_points 40 = 10 :=
  ⟨(C4_experience_tiers 95).1 (by norm_num),
   (C4_experience_tiers 85).2.1 (by norm_num) (by norm_num),
   (C4_experience_tiers 72).2.2.1 (by norm_num) (by norm_num),
   (C4_experience_tiers 65).2.2.2.1 (by norm_num) (by norm_num),
   (C4_experience_tiers 40).2.2.2.2 (by norm_num)⟩

/-- C2: one `add_analysis_record` call never decreases the
`current_level`, whatever the prior state and the supplied score; applied
after each call of a sequence this gives level monotonicity across the
sequence. -/
theorem C2_level_monotonic (now : Time) (uid sid : String) (score : Score) (angle : String)
    (cs : Option (List (String × Score))) (st : ManagerState) (u : String)
    (p p' : UserProgress)
    (hbefore : lookupAssoc st.progress_data u = some p)
    (hafter : lookupAssoc (add_analysis_record now uid sid score angle cs st).2.progress_data u
      = some p') :
    p.current_level ≤ p'.current_level := by
  rw [add_analysis_record_data] at hafter
  by_cases hu : u = uid
  · subst hu
    rw [lookup_update_self, hbefore] at hafter
    cases hafter
    rw [check_auto_badges_level, apply_level_up_level]
    simp only [Option.getD_some]
    have h0 : (apply_record now sid score angle cs p).current_level = p.current_level := rfl
    rw [h0]
    exact le_max_left _ _
  · rw [lookup_update_other _ _ _ _ hu, hbefore] at hafter
    cases hafter
    exact Nat.le_refl _

/-- C2 witness: a fresh level-1 user stays at level at least 1 after one
record. -/
theorem C2_level_monotonic_witness :
    ∃ p' : UserProgress,
      lookupAssoc (add_analysis_record 0 "u" "s1" 50 "front" none
        ⟨[("u", fresh_user ("u") 0)], none⟩).2.progress_data ("u") = some p' ∧
      (fresh_user ("u") 0).current_level ≤ p'.current_level := by
  cases h : lookupAssoc (add_analysis_record 0 "u" "s1" 50 "front" none
      ⟨[("u", fresh_user ("u") 0)], none⟩).2.progress_data ("u") with
  | none => exact absurd h (by with_unfolding_all decide)
  | some p' =>
    exact ⟨p', rfl,
      C2_level_monotonic 0 "u" "s1" 50 "front" none ⟨[("u", fresh_user ("u") 0)], none⟩ "u"
        (fresh_user ("u") 0) p' (by decide) h⟩

/-- C3: the two award paths never duplicate a badge id: the automatic
evaluator preserves distinctness of the badge ids of a user, and a manual
`award_badge` for an id the user already holds returns `false` and leaves the
state untouched. -/
theorem C3_badge_idempotent (now : Time) (st : ManagerState) (uid bid : String)
    (p : UserProgress) (hnd : (p.badges.map Badge.id).Nodup) :
    ((check_auto_badges now p).badges.map Badge.id).Nodup ∧
    ∀ q, lookupAssoc st.progress_data uid = some q → bid ∈ q.badges.map Badge.id →
      award_badge now uid bid st = (false, st) := by
  constructor
  · obtain ⟨ext, hmap, hsub, hmem⟩ := check_auto_badges_ids now p
    rw [hmap]
    refine List.Nodup.append hnd (hsub.nodup badge_keys_nodup) ?_
    intro a ha hb
    exact (hmem a hb).1 ha
  · intro q hq hmem
    unfold award_badge
    rw [hq]
    dsimp only
    simp [hmem]

/-- C3 witness: the idempotency theorem applied to a user already holding
`first_analysis`. -/
theorem C3_badge_idempotent_witness :
    ((check_auto_badges 0 c3w_user).badges.map Badge.id).Nodup ∧
    award_badge 0 "u" "first_analysis" ⟨[("u", c3w_user)], none⟩ =
      (false, ⟨[("u", c3w_user)], none⟩) := by
  have h := C3_badge_idempotent 0 ⟨[("u", c3w_user)], none⟩ "u" "first_analysis"
    c3w_user (by decide)
  exact ⟨h.1, h.2 c3w_user (by decide) (by decide)⟩

/-- C8 helper: the fall-through of `_check_badge_condition` on the
`improvement_champion` condition string is `False`, for every aggregate. -/
lemma all_categories_condition_false (now : Time) (q : UserProgress) :
    check_badge_condition now q ("all_categories_above_80") = false := rfl

/-- C8 helper: the only catalog entry keyed `improvement_champion` carries the
`all_categories_above_80` condition. -/
lemma improvement_champion_condition (bd : BadgeDef)
    (h : ("improvement_champion", bd) ∈ badge_definitions) :
    bd.condition = "all_categories_above_80" := by
  simp only [badge_definitions, List.mem_cons, List.not_mem_nil, or_false,
    Prod.mk.injEq] at h
  rcases h with h | h | h | h | h | h | h | h | h | h <;>
    first
      | (exact absurd h.1 (by decide))
      | (rw [h.2])

/-- C8: the `all_categories_above_80` condition always evaluates to false, so
the automatic evaluator never awards `improvement_champion`: the id appears
after evaluation only if it was already held. -/
theorem C8_champion_never_awarded (now : Time) (p : UserProgress) :
    check_badge_condition now p ("all_categories_above_80") = false ∧
    ("improvement_champion" ∈ (check_auto_badges now p).badges.map Badge.id →
      "improvement_champion" ∈ p.badges.map Badge.id) := by
  refine ⟨all_categories_condition_false now p, ?_⟩
  intro hmem
  obtain ⟨ext, hmap, hsub, hext⟩ := check_auto_badges_ids now p
  rw [hmap, List.mem_append] at hmem
  rcases hmem with hmem | hmem
  · exact hmem
  · obtain ⟨-, bd, q, hbd, hcond⟩ := hext _ hmem
    rw [improvement_champion_condition bd hbd, all_categories_condition_false now q] at hcond
    cases hcond

/-- C8 witness: the theorem applied to a user who already holds
`improvement_champion` (the only way the id can be present afterwards). -/
theorem C8_champion_never_awarded_witness :
    "improvement_champion" ∈ c8_user.badges.map Badge.id :=
  (C8_champion_never_awarded 0 c8_user).2 (by decide)

/-- C9: experience gained per record is always between 10 and 30 inclusive,
for any score, and one `add_analysis_record` call increases the recorded
`experience_points` by exactly that amount, so by at least 10 and at most
30. -/
theorem C9_experience_bounds (now : Time) (uid sid : String) (score : Score) (angle : String)
    (cs : Option (List (String × Score))) (st : ManagerState) :
    (10 ≤ calculate_experience_points score ∧ calculate_experience_points score ≤ 30) ∧
    ∀ p', lookupAssoc (add_analysis_record now uid sid score angle cs st).2.progress_data uid
        = some p' →
      ((lookupAssoc st.progress_data uid).getD (fresh_user uid now)).experience_points + 10
          ≤ p'.experience_points ∧
      p'.experience_points ≤
        ((lookupAssoc st.progress_data uid).getD (fresh_user uid now)).experience_points + 30 := by
  have hbounds : 10 ≤ calculate_experience_points score ∧
      calculate_experience_points score ≤ 30 := by
    simp only [calculate_experience_points]
    split_ifs <;> omega
  refine ⟨hbounds, ?_⟩
  intro p' hp'
  rw [add_analysis_record_data, lookup_update_self] at hp'
  cases hp'
  rw [check_auto_badges_exp, apply_level_up_exp]
  have h0 : (apply_record now sid score angle cs
      ((lookupAssoc st.progress_data uid).getD (fresh_user uid now))).experience_points =
      ((lookupAssoc st.progress_data uid).getD (fresh_user uid now)).experience_points +
        calculate_experience_points score := rfl
  rw [h0]
  omega

/-- C9 witness: the bounds theorem applied to a fresh user and score 100. -/
theorem C9_experience_bounds_witness :
    (10 ≤ calculate_experience_points 100 ∧ calculate_experience_points 100 ≤ 30) ∧
    ∃ p', lookupAssoc (add_analysis_record 0 "u" "s1" 100 "front" none
        ⟨[], none⟩).2.progress_data ("u") = some p' ∧
      (fresh_user ("u") 0).experience_points + 10 ≤ p'.experience_points ∧
      p'.experience_points ≤ (fresh_user ("u") 0).experience_points + 30 := by
  have h := C9_experience_bounds 0 "u" "s1" 100 "front" none ⟨[], none⟩
  refine ⟨h.1, ?_⟩
  cases hp : lookupAssoc (add_analysis_record 0 "u" "s1" 100 "front" none
      ⟨[], none⟩).2.progress_data ("u") with
  | none => exact absurd hp (by with_unfolding_all decide)
  | some p' => exact ⟨p', rfl, h.2 p' hp⟩

/-- C7: a manual `award_badge` call returns `false` and leaves the whole
manager state (every aggregate and the persisted file) unchanged whenever the
user is unknown, the badge id is not in the catalog, or the user already holds
the id; and it returns `true` exactly when an existing user is awarded a
not-yet-held catalog badge. -/
theorem C7_award_badge_spec (now : Time) (uid bid : String) (st : ManagerState) :
    ((lookupAssoc st.progress_data uid = none ∨
        List.lookup bid badge_definitions = none ∨
        (∃ q, lookupAssoc st.progress_data uid = some q ∧ bid ∈ q.badges.map Badge.id)) →
      award_badge now uid bid st = (false, st)) ∧
    ((award_badge now uid bid st).1 = true ↔
      ∃ q, lookupAssoc st.progress_data uid = some q ∧
        (List.lookup bid badge_definitions).isSome ∧ bid ∉ q.badges.map Badge.id) := by
  unfold award_badge
  cases hu : lookupAssoc st.progress_data uid with
  | none =>
    refine ⟨fun _ => rfl, ?_⟩
    constructor
    · intro h
      cases h
    · rintro ⟨q, hq, -, -⟩
      cases hq
  | some q =>
    dsimp only
    cases hlb : List.lookup bid badge_definitions with
    | none =>
      rw [if_pos (show (none : Option BadgeDef).isNone = true from rfl)]
      refine ⟨fun _ => rfl, ?_⟩
      constructor
      · intro h
        cases h
      · rintro ⟨q', hq', hsome, -⟩
        cases hsome
    | some bd =>
      rw [if_neg (show ¬ (some bd : Option BadgeDef).isNone = true by simp)]
      by_cases hm : bid ∈ q.badges.map Badge.id
      · rw [if_pos hm]
        refine ⟨fun _ => rfl, ?_⟩
        constructor
        · intro h
          cases h
        · rintro ⟨q', hq', -, hnot⟩
          cases hq'
          exact absurd hm hnot
      · rw [if_neg hm]
        constructor
        · rintro (h | h | ⟨q', hq', hmem⟩)
          · cases h
          · cases h
          · cases hq'
            exact absurd hmem hm
        · constructor
          · intro _
            exact ⟨q, rfl, rfl, hm⟩
          · intro _
            rfl

/-- C7 witness: awarding to an unknown user on the empty state returns
`false` and changes nothing. -/
theorem C7_award_badge_spec_witness :
    award_badge 0 "nobody" "first_analysis" ⟨[], none⟩ = (false, ⟨[], none⟩) :=
  (C7_award_badge_spec 0 "nobody" "first_analysis" ⟨[], none⟩).1 (Or.inl rfl)

/-- C10: for a known user the `score_history` field of the snapshot is exactly the
projection of the trailing records: the whole history when it has at most 10
records, and precisely the last 10 (a list of length 10, older records
dropped) when it has more. -/
theorem C10_score_history_last_ten (now : Time) (uid : String) (st : ManagerState)
    (p : UserProgress) (snap : ProgressSnapshot)
    (hp : lookupAssoc st.progress_data uid = some p)
    (hs : get_user_progress now uid st = some snap) :
    (p.analysis_records.length ≤ 10 →
      snap.score_history = p.analysis_records.map score_history_entry) ∧
    (10 < p.analysis_records.length →
      snap.score_history =
        (p.analysis_records.drop (p.analysis_records.length - 10)).map score_history_entry ∧
      snap.score_history.length = 10) := by
  unfold get_user_progress at hs
  rw [hp] at hs
  dsimp only at hs
  cases hs
  constructor
  · intro hle
    show get_score_history p = _
    unfold get_score_history
    rw [Nat.sub_eq_zero_of_le hle, List.drop_zero]
  · intro hlt
    refine ⟨rfl, ?_⟩
    show (get_score_history p).length = 10
    unfold get_score_history
    rw [List.length_map, List.length_drop]
    omega

/-- A user with two records (C10 witness). -/
def c10_user : UserProgress :=
  ⟨"u", 2, 1, 40, [⟨"s1", 0, 50, "front", none⟩, ⟨"s2", 1, 60, "side", none⟩], [], 0, some 1⟩

/-- C10 witness: with two records the snapshot history is the full projected
history. -/
theorem C10_score_history_last_ten_witness :
    ∃ snap : ProgressSnapshot,
      get_user_progress 0 "u" ⟨[("u", c10_user)], none⟩ = some snap ∧
      snap.score_history = c10_user.analysis_records.map score_history_entry := by
  cases hs : get_user_progress 0 "u" ⟨[("u", c10_user)], none⟩ with
  | none => exact absurd hs (by with_unfolding_all decide)
  | some snap =>
    exact ⟨snap, rfl,
      (C10_score_history_last_ten 0 "u" ⟨[("u", c10_user)], none⟩ c10_user snap
        (by decide) hs).1 (by decide)⟩

/-- Round-trip of a single record dict, available exactly when
`category_scores` was present. -/
lemma record_roundtrip (r : AnalysisRecord) (h : r.category_scores.isSome) :
    record_of_dict (record_to_dict r) = r := by
  obtain ⟨s, d, o, a, cs⟩ := r
  cases cs with
  | none => cases h
  | some l => rfl

/-- Round-trip of a single user dict, when every record carries a present
`category_scores` mapping. -/
lemma user_roundtrip (p : UserProgress)
    (h : ∀ r ∈ p.analysis_records, r.category_scores.isSome) :
    user_of_dict (user_to_dict p) = p := by
  have hrecs : (p.analysis_records.map record_to_dict).map record_of_dict
      = p.analysis_records := by
    rw [List.map_map]
    exact (List.map_congr_left fun r hr => record_roundtrip r (h r hr)).trans (List.map_id _)
  have hbs : (p.badges.map badge_to_dict).map badge_of_dict = p.badges := by
    rw [List.map_map]
    exact (List.map_congr_left fun b _ => rfl).trans (List.map_id _)
  unfold user_of_dict user_to_dict
  dsimp only
  rw [hrecs, hbs]

/-- A user whose single record has no `category_scores` (C5 counterexample). -/
def c5_user : UserProgress :=
  ⟨"u", 1, 1, 30, [⟨"s1", 0, 95, "front", none⟩],
   [⟨"first_analysis", "初回解析", "初めての動画解析を完了", 0, "🎾"⟩], 0, some 0⟩

/-- C5 counterexample: a store holding one user with one record (whose
`category_scores` is absent) and one badge does not round-trip to an equal
store — the absent mapping deserializes as an empty mapping. -/
theorem C5_roundtrip_counterexample :
    load_store (save_store [("u", c5_user)]) ≠ [("u", c5_user)] := by decide

/-- C5 (amended): serializing then deserializing the store reproduces every
aggregate field-for-field, provided the `category_scores` mapping of every record
is present; an absent (`None`) mapping instead comes back as the empty
mapping. -/
theorem C5_roundtrip (d : List (String × UserProgress))
    (h : ∀ x ∈ d, ∀ r ∈ x.2.analysis_records, r.category_scores.isSome) :
    load_store (save_store d) = d := by
  unfold load_store save_store
  rw [List.map_map]
  refine (List.map_congr_left ?_).trans (List.map_id d)
  intro x hx
  show (x.1, user_of_dict (user_to_dict x.2)) = x
  rw [user_roundtrip x.2 (h x hx)]

/-- A user with a record carrying category scores and one badge (C5
witness). -/
def c5w_user : UserProgress :=
  ⟨"u", 1, 1, 30, [⟨"s1", 0, 95, "front", some [("stance", 92)]⟩],
   [⟨"first_analysis", "初回解析", "初めての動画解析を完了", 0, "🎾"⟩], 0, some 0⟩

/-- C5 witness: the amended round-trip theorem applied to a one-user store
with a record (category scores present) and a badge. -/
theorem C5_roundtrip_witness :
    load_store (save_store [("u", c5w_user)]) = [("u", c5w_user)] :=
  C5_roundtrip [("u", c5w_user)] (by decide)

/-- `scores[0]` of the trailing-30-day window in
`_analyze_improvement_trends`. -/
def trend_first (now : Time) (p : UserProgress) : ℚ :=
  ((recent_month_records now p).map (fun r => r.overall_score)).headD 0

/-- `scores[-1]` of the trailing-30-day window in
`_analyze_improvement_trends`. -/
def trend_last (now : Time) (p : UserProgress) : ℚ :=
  ((recent_month_records now p).map (fun r => r.overall_score)).getLastD 0

/-- A user with three trailing-window records whose first score is negative
(C6 counterexample). -/
def c6_user : UserProgress :=
  ⟨"u", 3, 1, 30,
   [⟨"s1", 0, -10, "front", none⟩, ⟨"s2", 0, 0, "front", none⟩, ⟨"s3", 0, 5, "front", none⟩],
   [], 0, some 0⟩

/-- C6 counterexample: with window scores `[-10, 0, 5]` the formula claimed,
`(last − first) / first × 100` yields `−150` (first `= −10 ≠ 0`, so the
only guard of the claim does not apply), but the code guard `first > 0` makes it
report a change rate of `0`. -/
theorem C6_trend_counterexample :
    trend_first 0 c6_user = -10 ∧ trend_last 0 c6_user = 5 ∧
    (analyze_improvement_trends 0 c6_user).map TrendResult.change_rate = some 0 ∧
    (trend_last 0 c6_user - trend_first 0 c6_user) / trend_first 0 c6_user * 100 = -150 ∧
    (0 : ℚ) ≠ -150 := by
  refine ⟨?_, ?_, ?_, ?_, ?_⟩ <;> with_unfolding_all decide

/-- C6 (amended): under the data requirements (≥3 records, ≥2 in the
trailing 30 days) the trend is `improving` iff `last > first`, `declining`
iff `first − last ≥ 5`, else `stable`; the reported change rate is
`(last − first) / first × 100` rounded half-to-even to one decimal, computed
only when `first > 0` — a non-positive `first` (not merely `first == 0`)
yields rate 0. -/
theorem C6_trend_analysis (now : Time) (p : UserProgress)
    (h3 : 3 ≤ p.analysis_records.length)
    (h2 : 2 ≤ (recent_month_records now p).length) :
    ∃ r : TrendResult,
      analyze_improvement_trends now p = some r ∧
      r.trend = (if trend_last now p > trend_first now p then "improving"
                 else if trend_first now p - trend_last now p ≥ 5 then "declining"
                 else "stable") ∧
      r.change_rate = round1 (if trend_first now p > 0
          then (trend_last now p - trend_first now p) / trend_first now p * 100
          else 0) := by
  unfold analyze_improvement_trends
  rw [if_neg (by omega), if_neg (by omega)]
  have hlen : ((recent_month_records now p).map (fun r => r.overall_score)).length ≥ 2 := by
    rw [List.length_map]
    exact h2
  dsimp only
  rw [if_pos hlen]
  refine ⟨_, rfl, ?_, ?_⟩
  · show (if trend_last now p > trend_first now p then "improving"
        else if |trend_last now p - trend_first now p| < 5 then "stable"
        else "declining") = _
    by_cases hgt : trend_last now p > trend_first now p
    · rw [if_pos hgt, if_pos hgt]
    · rw [if_neg hgt, if_neg hgt]
      have habs : |trend_last now p - trend_first now p|
          = trend_first now p - trend_last now p := by
        rw [abs_of_nonpos (by linarith)]
        ring
      rw [habs]
      by_cases hd : trend_first now p - trend_last now p ≥ 5
      · rw [if_neg (by linarith), if_pos hd]
      · rw [if_pos (by linarith), if_neg hd]
  · rfl

/-- A user with window scores `[50, 60, 70]` (C6 witness). -/
def c6w_user : UserProgress :=
  ⟨"u", 3, 1, 30,
   [⟨"s1", 0, 50, "front", none⟩, ⟨"s2", 0, 60, "front", none⟩, ⟨"s3", 0, 70, "front", none⟩],
   [], 0, some 0⟩

/-- C6 witness: the amended trend theorem applied to scores `[50, 60, 70]`:
trend `improving`, change rate `(70 − 50) / 50 × 100 = 40`. -/
theorem C6_trend_analysis_witness :
    ∃ r : TrendResult,
      analyze_improvement_trends 0 c6w_user = some r ∧
      r.trend = "improving" ∧ r.change_rate = 40 := by
  obtain ⟨r, hr, ht, hc⟩ := C6_trend_analysis 0 c6w_user (by decide) (by decide)
  refine ⟨r, hr, ?_, ?_⟩
  · rw [ht]
    with_unfolding_all decide
  · rw [hc]
    with_unfolding_all decide

/-- One `add_analysis_record` call at score 95 for user `u` (C1 scenario). -/
def c1_step (st : ManagerState) (n : ℕ) : ManagerState :=
  (add_analysis_record (n : ℤ) "u" (toString n) 95 "front" none st).2

/-- The state after four score-95 records for user `u`: 120 experience
points, 4 analyses, level 1. -/
def c1_st4 : ManagerState :=
  c1_step (c1_step (c1_step (c1_step ⟨[], none⟩ 0) 1) 2) 3

/-- The fifth call, which raises the user to level 2 (150 points,
5 analyses). -/
def c1_call : AddResult × ManagerState :=
  add_analysis_record 4 "u" "s4" 95 "front" none c1_st4

/-- C1: at the failing input (fifth score-95 record), the call raises the
level of the user from 1 to 2 and appends the `level_2` badge, yet the returned
value carries `new_level = none` (the source compares `new_level` against the
already-overwritten `current_level`) and `new_badges = []` (a literal stub);
`exp_gained = 30` is the only correct field. -/
theorem C1_result_stub :
    (lookupAssoc c1_st4.progress_data ("u")).map UserProgress.current_level = some 1 ∧
    (lookupAssoc c1_call.2.progress_data ("u")).map UserProgress.current_level = some 2 ∧
    (lookupAssoc c1_st4.progress_data ("u")).map (fun p => p.badges.map Badge.id) =
      some ["first_analysis", "perfectionist", "consistent_week"] ∧
    (lookupAssoc c1_call.2.progress_data ("u")).map (fun p => p.badges.map Badge.id) =
      some ["first_analysis", "perfectionist", "consistent_week", "level_2"] ∧
    c1_call.1 = ⟨30, none, []⟩ := by
  refine ⟨?_, ?_, ?_, ?_, ?_⟩ <;> with_unfolding_all decide







